import Mathlib

/-!
Verification of the LocalDuck review-pipeline core (filter, prioritizer,
deduplicator, embedding cache, batcher, pipeline orchestrator) against its
natural-language specification.

The Python sources under src/localduck are shallowly embedded below.
External collaborators (the sentence-transformers embedder, the ChromaDB
vector store, the LLM review backend) are modelled as parameters or, where
the spec fixes their contract, as explicit definitions noted in comments.
Real-valued embedding arithmetic is modelled over the real numbers.
-/

/- ---------------------------------------------------------------------
   Data model (src/localduck/types.py)
--------------------------------------------------------------------- -/

/-- Severity enum from types.py (critical / warning / info). -/
inductive Severity where
  | critical
  | warning
  | info
deriving DecidableEq, Repr

/-- The string value of a Severity member, as in the Python StrEnum. -/
def Severity.value : Severity → String
  | .critical => "critical"
  | .warning => "warning"
  | .info => "info"

/-- Constructing a Severity from a string, as Python Severity(s); ValueError
becomes none. -/
def Severity.ofValue (s : String) : Option Severity :=
  if s = "critical" then some .critical
  else if s = "warning" then some .warning
  else if s = "info" then some .info
  else none

/-- CheckCategory enum from types.py (nine categories). -/
inductive CheckCategory where
  | codeQuality
  | security
  | codeSmell
  | license
  | documentation
  | testCoverage
  | performance
  | accessibility
  | llmSpecific
deriving DecidableEq, Repr

/-- The string value of a CheckCategory member, as in the Python StrEnum. -/
def CheckCategory.value : CheckCategory → String
  | .codeQuality => "codeQuality"
  | .security => "security"
  | .codeSmell => "codeSmell"
  | .license => "license"
  | .documentation => "documentation"
  | .testCoverage => "testCoverage"
  | .performance => "performance"
  | .accessibility => "accessibility"
  | .llmSpecific => "llmSpecific"

/-- Constructing a CheckCategory from a string, as Python CheckCategory(s);
ValueError becomes none. -/
def CheckCategory.ofValue (s : String) : Option CheckCategory :=
  if s = "codeQuality" then some .codeQuality
  else if s = "security" then some .security
  else if s = "codeSmell" then some .codeSmell
  else if s = "license" then some .license
  else if s = "documentation" then some .documentation
  else if s = "testCoverage" then some .testCoverage
  else if s = "performance" then some .performance
  else if s = "accessibility" then some .accessibility
  else if s = "llmSpecific" then some .llmSpecific
  else none

/-- FileDiff from types.py: one changed file as extracted from git. -/
structure FileDiff where
  path : String
  diff : String
  is_new : Bool := false
  is_deleted : Bool := false
deriving DecidableEq, Repr

/-- Issue from types.py: one finding produced by review or cache lookup. -/
structure Issue where
  file : String
  line : Option Int
  severity : Severity
  category : CheckCategory
  message : String
  suggestion : String := ""
deriving DecidableEq, Repr

/-- ScanResult from types.py: the terminal aggregate of one scan run.
Counters are naturals; the Python ints never go negative in the pipeline. -/
structure ScanResult where
  issues : List Issue := []
  files_scanned : Nat := 0
  files_skipped : Nat := 0
  files_cached : Nat := 0
  files_deduped : Nat := 0
  token_usage : Nat := 0
  cache_hits : Nat := 0
  skipped_files : List String := []
deriving DecidableEq, Repr

/-- The slice of LocalDuckConfig (config.py) that run_pipeline reads. -/
structure LocalDuckConfig where
  cache_threshold : ℝ
  token_budget : Int
  max_concurrent : Nat

/- ---------------------------------------------------------------------
   Filter (src/localduck/scanner/filter.py)
--------------------------------------------------------------------- -/

/-- The fixed extension blocklist _SKIP_EXTENSIONS from filter.py. -/
def _SKIP_EXTENSIONS : List String :=
  [".lock", ".svg", ".png", ".jpg", ".jpeg", ".gif", ".ico", ".webp",
   ".bmp", ".woff", ".woff2", ".ttf", ".eot", ".otf", ".map", ".min.js",
   ".min.css", ".pyc", ".pyo", ".so", ".dylib", ".dll", ".exe", ".jar",
   ".war", ".zip", ".tar", ".gz", ".br"]

/-- The basenames matched by the _SKIP_PATTERNS regex in filter.py.  The
regex is anchored as (start-or-slash)(basename)(end), which is exactly an
exact-basename match at the start of the path or after a slash. -/
def _SKIP_BASENAMES : List String :=
  ["package-lock.json", "yarn.lock", "pnpm-lock.yaml", "Pipfile.lock",
   "poetry.lock", "uv.lock", "Cargo.lock", "Gemfile.lock", "composer.lock",
   ".DS_Store", "Thumbs.db"]

/-- Python str.lower, modelled characterwise (ASCII case folding, as
Char.toLower maps only uppercase letters). -/
def strLower (s : String) : String := ⟨s.data.map Char.toLower⟩

/-- Python str.endswith, modelled on the character list. -/
def strEndsWith (s suffix : String) : Bool := suffix.data.isSuffixOf s.data

/-- Function _should_skip from filter.py: extension match on the lowercased path, or
anchored basename match on the original path. -/
def _should_skip (path : String) : Bool :=
  let lower := strLower path
  _SKIP_EXTENSIONS.any (fun ext => strEndsWith lower ext) ||
  _SKIP_BASENAMES.any (fun b => path == b || strEndsWith path ("/" ++ b))

/-- filter_diffs from filter.py: split diffs into reviewable ones and
skipped paths, each side preserving input order. -/
def filter_diffs (diffs : List FileDiff) : List FileDiff × List String :=
  (diffs.filter (fun fd => !(_should_skip fd.path)),
   (diffs.filter (fun fd => _should_skip fd.path)).map (fun fd => fd.path))

/- ---------------------------------------------------------------------
   Batcher and prioritizer (src/localduck/scanner/batcher.py)
--------------------------------------------------------------------- -/

/-- CHARS_PER_TOKEN from batcher.py. -/
def CHARS_PER_TOKEN : Nat := 4

/-- The fixed security-sensitive keyword set _HIGH_RISK_SEGMENTS from
batcher.py.  It is a Python frozenset; iteration order does not affect the
score, which only adds 10 once per member that matches. -/
def _HIGH_RISK_SEGMENTS : List String :=
  ["auth", "secret", "crypto", "password", "credential", "token", "admin",
   "db", "database", "migrate", "env", "config", "permission", "rbac",
   "session", "oauth", "jwt", "key", "cert", "ssl", "tls"]

/-- Python substring containment needle in hay, on character lists. -/
def containsSubstr (needle hay : String) : Bool :=
  hay.data.tails.any (fun t => needle.data.isPrefixOf t)

/-- Function _risk_score from batcher.py: 10 per matching keyword plus 5 for a new
file, written as the same accumulation loop as the source. -/
def _risk_score (fd : FileDiff) : Nat :=
  let path_lower := strLower fd.path
  let score :=
    _HIGH_RISK_SEGMENTS.foldl
      (fun sc segment => if containsSubstr segment path_lower then sc + 10 else sc) 0
  if fd.is_new then score + 5 else score

/-- estimate_tokens from batcher.py: floor division of the character count
by CHARS_PER_TOKEN. -/
def estimate_tokens (text : String) : Nat :=
  text.length / CHARS_PER_TOKEN

/-- Stable insertion step for the descending sort by _risk_score: an element
is placed before the first element whose score is not larger. -/
def insertByRisk (fd : FileDiff) : List FileDiff → List FileDiff
  | [] => [fd]
  | x :: xs =>
    if _risk_score fd < _risk_score x then x :: insertByRisk fd xs
    else fd :: x :: xs

/-- prioritize_diffs from batcher.py: Python sorted(key=_risk_score,
reverse=True) is a stable descending sort; it is modelled by the stable
insertion sort built from insertByRisk, which computes the same list. -/
def prioritize_diffs (diffs : List FileDiff) : List FileDiff :=
  diffs.foldr insertByRisk []

/-- The mutable loop state of batch_diffs from batcher.py. -/
structure BatchState where
  batches : List (List FileDiff)
  skipped : List String
  current_batch : List FileDiff
  current_tokens : Nat
  total_tokens : Nat
deriving DecidableEq, Repr

/-- The total-budget test of batch_diffs: with a finite budget, true when
total_tokens would exceed it (Python: total_tokens + diff_tokens > budget). -/
def overBudget (token_budget : Option Int) (tot : Nat) : Bool :=
  match token_budget with
  | some b => decide ((tot : Int) > b)
  | none => false

/-- One iteration of the batch_diffs loop from batcher.py. -/
def batchStep (max_tokens_per_batch : Nat) (token_budget : Option Int)
    (s : BatchState) (fd : FileDiff) : BatchState :=
  let diff_tokens := estimate_tokens fd.diff
  if overBudget token_budget (s.total_tokens + diff_tokens) then
    { s with skipped := s.skipped ++ [fd.path] }
  else if max_tokens_per_batch < diff_tokens then
    let s1 :=
      if s.current_batch.isEmpty then s
      else { s with batches := s.batches ++ [s.current_batch],
                    current_batch := [], current_tokens := 0 }
    { s1 with batches := s1.batches ++ [[fd]],
              total_tokens := s1.total_tokens + diff_tokens }
  else
    let s2 :=
      if max_tokens_per_batch < s.current_tokens + diff_tokens then
        { s with batches := s.batches ++ [s.current_batch],
                 current_batch := [], current_tokens := 0 }
      else s
    { s2 with current_batch := s2.current_batch ++ [fd],
              current_tokens := s2.current_tokens + diff_tokens,
              total_tokens := s2.total_tokens + diff_tokens }

/-- batch_diffs from batcher.py: fold the loop over the diffs, then flush
the final partially-filled batch.  In the source max_tokens_per_batch
defaults to 12000 and token_budget to None; callers here always pass both
explicitly. -/
def batch_diffs (diffs : List FileDiff) (max_tokens_per_batch : Nat)
    (token_budget : Option Int) : List (List FileDiff) × List String :=
  let s := diffs.foldl (batchStep max_tokens_per_batch token_budget)
    ⟨[], [], [], 0, 0⟩
  (if s.current_batch.isEmpty then s.batches else s.batches ++ [s.current_batch],
   s.skipped)

/- ---------------------------------------------------------------------
   Embedder (src/localduck/scanner/embedder.py)

   The sentence-transformers model is an external collaborator; theorems
   take the embedding function as a parameter.  cosine_similarity is this
   repository's own code and is embedded over the reals.
--------------------------------------------------------------------- -/

/-- Coordinatewise dot product, as np.dot on equal-length vectors. -/
def dotList (a b : List ℝ) : ℝ := (List.zipWith (· * ·) a b).sum

/-- Euclidean norm, as np.linalg.norm. -/
noncomputable def norm2 (a : List ℝ) : ℝ := Real.sqrt (dotList a a)

/-- cosine_similarity from embedder.py, including the zero-norm guard. -/
noncomputable def cosine_similarity (a b : List ℝ) : ℝ :=
  let dot := dotList a b
  let norm_a := norm2 a
  let norm_b := norm2 b
  if norm_a = 0 ∨ norm_b = 0 then 0 else dot / (norm_a * norm_b)

/- ---------------------------------------------------------------------
   Deduplicator (src/localduck/scanner/dedup.py)
--------------------------------------------------------------------- -/

/-- DedupResult from dedup.py.  groups is a Python dict in insertion
order, modelled as an association list built with dict-style insertion. -/
structure DedupResult where
  unique : List FileDiff := []
  groups : List (String × List String) := []
  embeddings : List (List ℝ) := []

/-- Python dict assignment d[k] = v: replace the value in place when the
key is present, append the pair otherwise. -/
def dictInsert (k : String) (v : List String) :
    List (String × List String) → List (String × List String)
  | [] => [(k, v)]
  | (k', v') :: rest =>
    if k' = k then (k, v) :: rest else (k', v') :: dictInsert k v rest

/-- The greedy clustering loop of deduplicate: the head of the worklist is
the next unclaimed diff, hence a representative; every later unclaimed diff
within threshold of it is claimed as its duplicate, and the loop continues
on the unclaimed remainder.  Returns the representatives (with embeddings)
in input order, and the group entries in representative order. -/
noncomputable def dedupGo (threshold : ℝ) :
    List (FileDiff × List ℝ) → List (FileDiff × List ℝ) × List (String × List String)
  | [] => ([], [])
  | (fd, e) :: rest =>
    let claimed := rest.filter
      (fun p => if cosine_similarity e p.2 ≥ threshold then true else false)
    let unclaimed := rest.filter
      (fun p => !(if cosine_similarity e p.2 ≥ threshold then true else false))
    let r := dedupGo threshold unclaimed
    ((fd, e) :: r.1,
     if claimed.isEmpty then r.2
     else (fd.path, claimed.map (fun p => p.1.path)) :: r.2)
termination_by l => l.length
decreasing_by
  simp only [List.length_cons]
  exact Nat.lt_succ_of_le (List.length_filter_le _ _)

/-- deduplicate from dedup.py, with the external embedder as a parameter.
The groups dict is built by applying Python dict assignment to the group
entries in the order the loop produces them. -/
noncomputable def deduplicate (embed : List String → List (List ℝ))
    (threshold : ℝ) (diffs : List FileDiff) : DedupResult :=
  match diffs with
  | [] => {}
  | [d] =>
    let embeddings := embed [d.diff]
    { unique := [d], groups := [], embeddings := [embeddings.headD []] }
  | _ =>
    let all_embeddings := embed (diffs.map (fun fd => fd.diff))
    let r := dedupGo threshold (diffs.zip all_embeddings)
    { unique := r.1.map (fun p => p.1),
      groups := r.2.foldl (fun acc p => dictInsert p.1 p.2 acc) [],
      embeddings := r.1.map (fun p => p.2) }

/- ---------------------------------------------------------------------
   Issue serialization (src/localduck/scanner/cache.py)

   JSON values are modelled by an inductive; a stored payload is an
   Option Json, none standing for a string that is not valid JSON.
--------------------------------------------------------------------- -/

/-- JSON values, as produced by json.loads in cache.py. -/
inductive Json where
  | null
  | bool (b : Bool)
  | num (n : Int)
  | str (s : String)
  | arr (items : List Json)
  | obj (fields : List (String × Json))

/-- Lookup of a key in a JSON object, as Python dict indexing.  The
serializer never emits duplicate keys, so first-match lookup is exact. -/
def jsonLookup (fields : List (String × Json)) (k : String) : Option Json :=
  match fields with
  | [] => none
  | (k', v) :: rest => if k' = k then some v else jsonLookup rest k

/-- Function _serialize_issues from cache.py, at the JSON-value level: an array of
objects with the six issue fields in source order. -/
def _serialize_issues (issues : List Issue) : Json :=
  .arr (issues.map (fun i =>
    .obj [("file", .str i.file),
          ("line", match i.line with | none => .null | some n => .num n),
          ("severity", .str i.severity.value),
          ("category", .str i.category.value),
          ("message", .str i.message),
          ("suggestion", .str i.suggestion)]))

/-- One item of the _deserialize_issues loop.  ok none is a malformed item
skipped by the except (KeyError, ValueError) handler; error is an uncaught
TypeError (a non-dict item).  A dict item whose field value has the wrong
JSON type would let Python build an ill-typed Issue record; no such payload
is written by the serializer, and it is modelled as a skipped item. -/
def deserializeItem (j : Json) : Except Unit (Option Issue) :=
  match j with
  | .obj fields =>
    match jsonLookup fields "file" with
    | some (.str file) =>
      let lineVal : Option (Option Int) :=
        match jsonLookup fields "line" with
        | none => some none
        | some .null => some none
        | some (.num n) => some (some n)
        | some _ => none
      match lineVal with
      | none => .ok none
      | some line =>
        match jsonLookup fields "severity" with
        | some (.str sv) =>
          match Severity.ofValue sv with
          | none => .ok none
          | some severity =>
            match jsonLookup fields "category" with
            | some (.str cat) =>
              match CheckCategory.ofValue cat with
              | none => .ok none
              | some category =>
                match jsonLookup fields "message" with
                | some (.str message) =>
                  let suggestionVal : Option String :=
                    match jsonLookup fields "suggestion" with
                    | none => some ""
                    | some (.str s) => some s
                    | some _ => none
                  match suggestionVal with
                  | none => .ok none
                  | some suggestion =>
                    .ok (some ⟨file, line, severity, category, message, suggestion⟩)
                | some _ => .ok none
                | none => .ok none
            | some _ => .ok none
            | none => .ok none
        | some _ => .ok none
        | none => .ok none
    | some _ => .ok none
    | none => .ok none
  | _ => .error ()

/-- The item loop of _deserialize_issues: malformed items are skipped, an
uncaught error aborts the whole call. -/
def deserializeItems : List Json → Except Unit (List Issue)
  | [] => .ok []
  | j :: rest => do
    let head ← deserializeItem j
    let tail ← deserializeItems rest
    match head with
    | none => .ok tail
    | some i => .ok (i :: tail)

/-- Function _deserialize_issues from cache.py over an Option Json payload: invalid
JSON (none) is caught and yields no issues; a JSON array is processed
item-wise; iterating a non-list value raises unless it is an empty dict or
empty string, whose Python for-loops run zero iterations. -/
def _deserialize_issues (raw : Option Json) : Except Unit (List Issue) :=
  match raw with
  | none => .ok []
  | some (.arr items) => deserializeItems items
  | some (.obj []) => .ok []
  | some (.str "") => .ok []
  | some _ => .error ()

/- ---------------------------------------------------------------------
   Review cache (src/localduck/scanner/cache.py)

   ChromaDB is the external vector store.  Per the spec it is a
   nearest-neighbor (k=1) index over the stored embeddings with cosine
   distance, similarity = 1 - distance.  The store is modelled as the list
   of entries in insertion order; the nearest entry is the first one of
   minimal cosine distance, with cosine similarity as defined by this
   repository.  Entry ids and timestamps are not observable through query
   and are not modelled.
--------------------------------------------------------------------- -/

/-- One persisted cache entry: embedding, serialized issue payload (none
standing for an unreadable / invalid-JSON string), and source file path. -/
structure CacheEntry where
  emb : List ℝ
  payload : Option Json
  file_path : String

/-- The k=1 nearest-neighbor of the query embedding among the stored
entries: the first entry of minimal cosine distance. -/
noncomputable def nearestEntry (e : List ℝ) (h : CacheEntry)
    (rest : List CacheEntry) : CacheEntry :=
  rest.foldl
    (fun best ent =>
      if 1 - cosine_similarity e ent.emb < 1 - cosine_similarity e best.emb
      then ent else best) h

/-- ReviewCache.query from cache.py: empty store is a miss; otherwise take
the nearest entry, compute similarity = 1 - distance, miss when below the
threshold, else deserialize the stored payload.  An uncaught
deserialization error propagates out of the query. -/
noncomputable def ReviewCache.query (entries : List CacheEntry) (e : List ℝ)
    (threshold : ℝ) : Except Unit (Option (List Issue)) :=
  match entries with
  | [] => .ok none
  | h :: rest =>
    let best := nearestEntry e h rest
    let distance := 1 - cosine_similarity e best.emb
    let similarity := 1 - distance
    if similarity < threshold then .ok none
    else
      match _deserialize_issues best.payload with
      | .error err => .error err
      | .ok issues => .ok (some issues)

/-- ReviewCache.store from cache.py: append a new entry holding the
embedding, the serialized issues and the file path. -/
def ReviewCache.store (entries : List CacheEntry) (e : List ℝ)
    (issues : List Issue) (file_path : String) : List CacheEntry :=
  entries ++ [⟨e, some (_serialize_issues issues), file_path⟩]

/- ---------------------------------------------------------------------
   Pipeline orchestrator (src/localduck/scanner/pipeline.py)

   The review backend is a parameter returning none when the batch call
   raises (asyncio.gather with return_exceptions catches it; the batch
   contributes zero issues).  gather returns results in task order, so the
   merge over batch results is deterministic and is modelled sequentially;
   the concurrency semaphore does not affect any returned value.
--------------------------------------------------------------------- -/

/-- Step 4 of run_pipeline: query the cache for each representative in
order, splitting into cache misses (with their embeddings) and cached
issues, and counting hits. -/
noncomputable def cacheCheck (entries : List CacheEntry) (threshold : ℝ) :
    List (FileDiff × List ℝ) →
    Except Unit (List (FileDiff × List ℝ) × List Issue × Nat)
  | [] => .ok ([], [], 0)
  | (fd, e) :: rest => do
    let cached ← ReviewCache.query entries e threshold
    let r ← cacheCheck entries threshold rest
    match cached with
    | none => .ok ((fd, e) :: r.1, r.2.1, r.2.2)
    | some issues => .ok (r.1, issues ++ r.2.1, r.2.2 + 1)

/-- Step 6 of run_pipeline: cached issues first, then each batch result in
task order; a failed batch (none) contributes zero issues. -/
def reviewMerge (review : List FileDiff → Option (List Issue))
    (cached_issues : List Issue) (batches : List (List FileDiff)) : List Issue :=
  batches.foldl
    (fun acc b => match review b with | none => acc | some issues => acc ++ issues)
    cached_issues

/-- Function _store_in_background from pipeline.py: store one new entry per
cache-miss representative, holding the merged issues whose file equals that
representative's path.  The isinstance ndarray guard always holds for the
embeddings produced by deduplicate and is not modelled. -/
def _store_in_background (cache : List CacheEntry)
    (needs_review : List (FileDiff × List ℝ)) (all_issues : List Issue) :
    List CacheEntry :=
  needs_review.foldl
    (fun c p =>
      ReviewCache.store c p.2
        (all_issues.filter (fun i => i.file == p.1.path)) p.1.path)
    cache

/-- Step 8 of run_pipeline: for each group in insertion order, the issues
of the current list whose file equals the representative path are cloned
once per duplicate path, with only the file rewritten, and appended. -/
def fanout (groups : List (String × List String)) (issues : List Issue) :
    List Issue :=
  groups.foldl
    (fun acc g =>
      let rep_issues := acc.filter (fun i => i.file == g.1)
      acc ++ g.2.flatMap (fun dup => rep_issues.map (fun i => { i with file := dup })))
    issues

/-- run_pipeline from pipeline.py, over an initial persistent cache state;
returns the ScanResult together with the final cache state.  A query error
escapes the run (Except.error). -/
noncomputable def run_pipeline (embed : List String → List (List ℝ))
    (review : List FileDiff → Option (List Issue))
    (cache0 : List CacheEntry) (config : LocalDuckConfig)
    (diffs : List FileDiff) : Except Unit (ScanResult × List CacheEntry) :=
  let fr := filter_diffs diffs
  if fr.1.isEmpty then
    .ok ({ files_skipped := fr.2.length, skipped_files := fr.2 }, cache0)
  else
    let reviewable := prioritize_diffs fr.1
    let dedup_result := deduplicate embed config.cache_threshold reviewable
    let files_deduped := (dedup_result.groups.map (fun g => g.2.length)).sum
    match cacheCheck cache0 config.cache_threshold
        (dedup_result.unique.zip dedup_result.embeddings) with
    | .error err => .error err
    | .ok cc =>
      let needs_review := cc.1
      let cached_issues := cc.2.1
      let hits := cc.2.2
      let token_budget : Option Int :=
        if config.token_budget > 0 then some config.token_budget else none
      let bb := batch_diffs (needs_review.map (fun p => p.1)) 12000 token_budget
      let all_issues := reviewMerge review cached_issues bb.1
      let cacheFinal := _store_in_background cache0 needs_review all_issues
      .ok ({ issues := fanout dedup_result.groups all_issues,
             files_scanned := reviewable.length - bb.2.length,
             files_skipped := fr.2.length,
             files_cached := hits,
             files_deduped := files_deduped,
             token_usage := 0,
             cache_hits := hits,
             skipped_files := fr.2 ++ bb.2 }, cacheFinal)

/- ---------------------------------------------------------------------
   Concrete fixtures used by witnesses and counterexamples
--------------------------------------------------------------------- -/

/-- A deterministic embedder: the text x maps to the vector [1], every
other text to [-1].  Identical texts get identical embeddings (cosine
similarity 1); an x-text and another text get cosine similarity -1. -/
noncomputable def embedPM : List String → List (List ℝ) :=
  fun texts => texts.map (fun t => if t = "x" then [(1 : ℝ)] else [(-1 : ℝ)])

/-- A configuration with similarity threshold 1 and unlimited budget. -/
noncomputable def cfgOne : LocalDuckConfig := ⟨1, 0, 4⟩

def fdA : FileDiff := ⟨"f0.txt", "x", false, false⟩
def fdB : FileDiff := ⟨"f1.txt", "x", false, false⟩
def fdC : FileDiff := ⟨"f1.txt", "y", false, false⟩
def fdD : FileDiff := ⟨"f2.txt", "y", false, false⟩

def gdA : FileDiff := ⟨"pa", "x", false, false⟩
def gdB : FileDiff := ⟨"pb", "x", false, false⟩
def gdC : FileDiff := ⟨"pa", "y", false, false⟩
def gdD : FileDiff := ⟨"pr", "y", false, false⟩

def cIssue : Issue := ⟨"f0.txt", none, .critical, .security, "m", ""⟩

/-- A review backend that reports cIssue for every batch. -/
def reviewOne : List FileDiff → Option (List Issue) := fun _ => some [cIssue]

/-- A review backend that reports no issues. -/
def reviewNone : List FileDiff → Option (List Issue) := fun _ => some []

/-- A cache entry whose stored payload is not valid JSON. -/
noncomputable def corruptEntry : CacheEntry := ⟨[(1 : ℝ)], none, "p"⟩

/- ---------------------------------------------------------------------
   Supporting lemmas
--------------------------------------------------------------------- -/

/-- Spec-side risk score (spec 4.2): 10 times the number of matching
keywords plus 5 for a newly added file. -/
def riskScoreSpec (fd : FileDiff) : Nat :=
  10 * (_HIGH_RISK_SEGMENTS.countP (fun segment => containsSubstr segment (strLower fd.path)))
    + (if fd.is_new then 5 else 0)

theorem risk_foldl_count (p : String → Bool) (l : List String) (a : Nat) :
    l.foldl (fun sc segment => if p segment then sc + 10 else sc) a
      = a + 10 * l.countP p := by
  induction l generalizing a with
  | nil => simp
  | cons x xs ih =>
    rw [List.foldl_cons, List.countP_cons]
    by_cases hx : p x = true
    · simp only [if_pos hx]
      rw [ih]
      ring
    · simp only [if_neg hx]
      rw [ih]
      simp

theorem risk_score_eq_spec (fd : FileDiff) : _risk_score fd = riskScoreSpec fd := by
  simp only [_risk_score, riskScoreSpec]
  rw [risk_foldl_count]
  by_cases h : fd.is_new <;> simp [h]

theorem insertByRisk_perm (fd : FileDiff) (l : List FileDiff) :
    List.Perm (insertByRisk fd l) (fd :: l) := by
  induction l with
  | nil => simp [insertByRisk]
  | cons x xs ih =>
    unfold insertByRisk
    by_cases h : _risk_score fd < _risk_score x
    · simp only [h, if_true]
      exact ((ih.cons x).trans (List.Perm.swap fd x xs))
    · simp only [h, if_false]
      exact List.Perm.refl _

theorem prioritize_diffs_perm (diffs : List FileDiff) :
    List.Perm (prioritize_diffs diffs) diffs := by
  induction diffs with
  | nil => simp [prioritize_diffs]
  | cons x xs ih =>
    have : prioritize_diffs (x :: xs) = insertByRisk x (prioritize_diffs xs) := rfl
    rw [this]
    exact (insertByRisk_perm x _).trans (ih.cons x)

theorem mem_insertByRisk {y fd : FileDiff} {l : List FileDiff}
    (h : y ∈ insertByRisk fd l) : y = fd ∨ y ∈ l :=
  List.mem_cons.mp ((insertByRisk_perm fd l).mem_iff.mp h)

theorem insertByRisk_sorted (fd : FileDiff) {l : List FileDiff}
    (h : l.Pairwise (fun a b => _risk_score b ≤ _risk_score a)) :
    (insertByRisk fd l).Pairwise (fun a b => _risk_score b ≤ _risk_score a) := by
  induction l with
  | nil => simp [insertByRisk]
  | cons x xs ih =>
    rcases List.pairwise_cons.mp h with ⟨hx, hxs⟩
    unfold insertByRisk
    by_cases hlt : _risk_score fd < _risk_score x
    · simp only [hlt, if_true]
      refine List.pairwise_cons.mpr ⟨?_, ih hxs⟩
      intro y hy
      rcases mem_insertByRisk hy with rfl | hy'
      · exact Nat.le_of_lt hlt
      · exact hx y hy'
    · simp only [hlt, if_false]
      refine List.pairwise_cons.mpr ⟨?_, h⟩
      intro y hy
      rcases List.mem_cons.mp hy with rfl | hy'
      · exact Nat.le_of_not_lt hlt
      · exact le_trans (hx y hy') (Nat.le_of_not_lt hlt)

theorem prioritize_diffs_sorted (diffs : List FileDiff) :
    (prioritize_diffs diffs).Pairwise (fun a b => _risk_score b ≤ _risk_score a) := by
  induction diffs with
  | nil => simp [prioritize_diffs]
  | cons x xs ih => exact insertByRisk_sorted x ih

theorem insertByRisk_filter_ne {fd : FileDiff} {s : Nat}
    (hne : _risk_score fd ≠ s) (l : List FileDiff) :
    (insertByRisk fd l).filter (fun d => _risk_score d == s)
      = l.filter (fun d => _risk_score d == s) := by
  induction l with
  | nil => simp [insertByRisk, hne]
  | cons x xs ih =>
    unfold insertByRisk
    by_cases hlt : _risk_score fd < _risk_score x
    · simp only [hlt, if_true]
      by_cases hx : _risk_score x = s
      · simp [List.filter_cons, hx, ih]
      · simp [List.filter_cons, hx, ih]
    · simp only [hlt, if_false]
      simp [List.filter_cons, hne]

theorem insertByRisk_filter_eq {fd : FileDiff} {s : Nat}
    (heq : _risk_score fd = s) (l : List FileDiff) :
    (insertByRisk fd l).filter (fun d => _risk_score d == s)
      = fd :: l.filter (fun d => _risk_score d == s) := by
  induction l with
  | nil => simp [insertByRisk, heq]
  | cons x xs ih =>
    unfold insertByRisk
    by_cases hlt : _risk_score fd < _risk_score x
    · simp only [hlt, if_true]
      have hx : _risk_score x ≠ s := by omega
      simp [List.filter_cons, hx, ih]
    · simp only [hlt, if_false]
      simp [List.filter_cons, heq]

theorem prioritize_diffs_stable (diffs : List FileDiff) (s : Nat) :
    (prioritize_diffs diffs).filter (fun d => _risk_score d == s)
      = diffs.filter (fun d => _risk_score d == s) := by
  induction diffs with
  | nil => simp [prioritize_diffs]
  | cons x xs ih =>
    have hstep : prioritize_diffs (x :: xs) = insertByRisk x (prioritize_diffs xs) := rfl
    rw [hstep]
    by_cases hx : _risk_score x = s
    · rw [insertByRisk_filter_eq hx, ih, List.filter_cons]
      simp [hx]
    · rw [insertByRisk_filter_ne hx, ih, List.filter_cons]
      simp [hx]

/- ---------------------------------------------------------------------
   Claim C3 — token estimate
--------------------------------------------------------------------- -/

/-- C3 counterexample: the claim says a 5-character text is estimated at
ceil(5 / 4) = 2 tokens; estimate_tokens gives floor(5 / 4) = 1. -/
theorem estimate_tokens_not_ceil :
    estimate_tokens "abcde" ≠ (5 + CHARS_PER_TOKEN - 1) / CHARS_PER_TOKEN := by
  decide

/-- C3 amended: the token estimate for a text is the floor of
charCount / 4: it is the unique n with 4 * n ≤ charCount < 4 * (n + 1). -/
theorem estimate_tokens_floor (text : String) :
    CHARS_PER_TOKEN * estimate_tokens text ≤ text.length ∧
      text.length < CHARS_PER_TOKEN * (estimate_tokens text + 1) := by
  unfold estimate_tokens CHARS_PER_TOKEN
  have h := Nat.div_add_mod text.length 4
  have h2 : text.length % 4 < 4 := Nat.mod_lt _ (by norm_num)
  omega

/- ---------------------------------------------------------------------
   Claim C4 — prioritize is a stable descending sort by risk score
--------------------------------------------------------------------- -/

/-- C4: the risk score is 10 per security-sensitive keyword occurring as a
substring of the lowercased path plus 5 for a new file, and
prioritize_diffs is the stable sort descending by that score: a permutation
of the input, sorted by non-increasing score, with all equal-score diffs
keeping their relative input order. -/
theorem prioritize_stable_desc_sort :
    (∀ fd : FileDiff, _risk_score fd = riskScoreSpec fd) ∧
    ∀ diffs : List FileDiff,
      List.Perm (prioritize_diffs diffs) diffs ∧
      (prioritize_diffs diffs).Pairwise (fun a b => _risk_score b ≤ _risk_score a) ∧
      ∀ s : Nat,
        (prioritize_diffs diffs).filter (fun d => _risk_score d == s)
          = diffs.filter (fun d => _risk_score d == s) :=
  ⟨risk_score_eq_spec, fun diffs =>
    ⟨prioritize_diffs_perm diffs, prioritize_diffs_sorted diffs,
     prioritize_diffs_stable diffs⟩⟩

/- ---------------------------------------------------------------------
   Claim C6 — over-sized diffs become flushed singleton batches and are
   charged to the running total exactly once
--------------------------------------------------------------------- -/

/-- C6: when a diff passes the total-budget check but exceeds the per-batch
limit, the loop flushes the current batch if non-empty, emits the diff as a
singleton batch, and adds its estimate to the running total exactly once.
The hypothesis hinv is the loop invariant that an empty current batch
carries zero current tokens, which holds at every reachable state. -/
theorem batch_singleton_spec (maxPer : Nat) (budget : Option Int)
    (s : BatchState) (fd : FileDiff)
    (hbudget : overBudget budget (s.total_tokens + estimate_tokens fd.diff) = false)
    (hbig : maxPer < estimate_tokens fd.diff)
    (hinv : s.current_batch = [] → s.current_tokens = 0) :
    batchStep maxPer budget s fd =
      { batches := s.batches ++ (if s.current_batch.isEmpty then []
                     else [s.current_batch]) ++ [[fd]],
        skipped := s.skipped,
        current_batch := [],
        current_tokens := 0,
        total_tokens := s.total_tokens + estimate_tokens fd.diff } := by
  by_cases hc : s.current_batch.isEmpty
  · have hnil : s.current_batch = [] := List.isEmpty_iff.mp hc
    simp [batchStep, hbudget, hbig, hc, hnil, hinv hnil]
  · simp [batchStep, hbudget, hbig, hc]

/-- C6 witness: a concrete state with a non-empty current batch and a
3-token diff against a per-batch limit of 2. -/
theorem batch_singleton_witness :
    batchStep 2 none
      ⟨[], [], [⟨"a.py", "aaaa", false, false⟩], 1, 1⟩
      ⟨"b.py", "bbbbbbbbbbbbb", false, false⟩ =
      { batches := [] ++ (if ([(⟨"a.py", "aaaa", false, false⟩ : FileDiff)] : List FileDiff).isEmpty then []
                     else [[⟨"a.py", "aaaa", false, false⟩]]) ++ [[⟨"b.py", "bbbbbbbbbbbbb", false, false⟩]],
        skipped := [],
        current_batch := [],
        current_tokens := 0,
        total_tokens := 1 + estimate_tokens "bbbbbbbbbbbbb" } :=
  batch_singleton_spec 2 none _ _ (by decide) (by decide) (by decide)

/- ---------------------------------------------------------------------
   Claim C10 — cosine_similarity is total and guarded
--------------------------------------------------------------------- -/

/-- C10: for every pair of vectors, a zero Euclidean norm on either side
makes cosine_similarity return exactly 0, and otherwise the division is
performed with a provably non-zero divisor. -/
theorem cosine_similarity_total_guarded (a b : List ℝ) :
    ((norm2 a = 0 ∨ norm2 b = 0) → cosine_similarity a b = 0) ∧
    (norm2 a ≠ 0 → norm2 b ≠ 0 →
      norm2 a * norm2 b ≠ 0 ∧
      cosine_similarity a b = dotList a b / (norm2 a * norm2 b)) := by
  constructor
  · intro h
    simp only [cosine_similarity]
    rw [if_pos h]
  · intro ha hb
    refine ⟨mul_ne_zero ha hb, ?_⟩
    simp only [cosine_similarity]
    rw [if_neg (by push_neg; exact ⟨ha, hb⟩)]

/-- C10 witness at a zero vector against a non-zero vector. -/
theorem cosine_similarity_guard_witness :
    cosine_similarity [(0 : ℝ)] [(1 : ℝ)] = 0 :=
  (cosine_similarity_total_guarded [0] [1]).1
    (Or.inl (by simp [norm2, dotList]))

/- ---------------------------------------------------------------------
   Serialization round trip and concrete cosine values
--------------------------------------------------------------------- -/

theorem severity_roundtrip (s : Severity) : Severity.ofValue s.value = some s := by
  cases s <;> rfl

theorem category_roundtrip (c : CheckCategory) :
    CheckCategory.ofValue c.value = some c := by
  cases c <;> rfl

theorem deserializeItem_ok (i : Issue) :
    deserializeItem
      (.obj [("file", .str i.file),
             ("line", match i.line with | none => .null | some n => .num n),
             ("severity", .str i.severity.value),
             ("category", .str i.category.value),
             ("message", .str i.message),
             ("suggestion", .str i.suggestion)]) = .ok (some i) := by
  cases i with
  | mk file line severity category message suggestion =>
    cases line <;> cases severity <;> cases category <;> rfl

theorem deserialize_serialize (issues : List Issue) :
    _deserialize_issues (some (_serialize_issues issues)) = .ok issues := by
  simp only [_serialize_issues, _deserialize_issues]
  induction issues with
  | nil => rfl
  | cons i rest ih =>
    simp only [List.map_cons, deserializeItems, deserializeItem_ok, ih]
    rfl

theorem dotList_self_nonneg (a : List ℝ) : 0 ≤ dotList a a := by
  induction a with
  | nil => simp [dotList]
  | cons x xs ih =>
    have hx : dotList (x :: xs) (x :: xs) = x * x + dotList xs xs := by
      simp [dotList]
    rw [hx]
    have := mul_self_nonneg x
    linarith

theorem cosine_similarity_self (e : List ℝ) (h : dotList e e ≠ 0) :
    cosine_similarity e e = 1 := by
  have hnn : 0 ≤ dotList e e := dotList_self_nonneg e
  have hpos : 0 < dotList e e := lt_of_le_of_ne hnn (Ne.symm h)
  have hspos : 0 < norm2 e := Real.sqrt_pos.mpr hpos
  simp only [cosine_similarity]
  rw [if_neg (by push_neg; exact ⟨ne_of_gt hspos, ne_of_gt hspos⟩)]
  have hsq : norm2 e * norm2 e = dotList e e := Real.mul_self_sqrt hnn
  rw [hsq]
  exact div_self h

theorem dot_pp : dotList [(1 : ℝ)] [(1 : ℝ)] = 1 := by norm_num [dotList]

theorem dot_pm : dotList [(1 : ℝ)] [(-1 : ℝ)] = -1 := by norm_num [dotList]

theorem dot_mm : dotList [(-1 : ℝ)] [(-1 : ℝ)] = 1 := by norm_num [dotList]

theorem norm2_p : norm2 [(1 : ℝ)] = 1 := by
  rw [norm2, dot_pp, Real.sqrt_one]

theorem norm2_m : norm2 [(-1 : ℝ)] = 1 := by
  rw [norm2, dot_mm, Real.sqrt_one]

theorem norm2_z : norm2 [(0 : ℝ)] = 0 := by
  have h0 : dotList [(0 : ℝ)] [(0 : ℝ)] = 0 := by norm_num [dotList]
  rw [norm2, h0, Real.sqrt_zero]

theorem cos_pp : cosine_similarity [(1 : ℝ)] [(1 : ℝ)] = 1 := by
  simp only [cosine_similarity]
  rw [norm2_p, dot_pp]
  norm_num

theorem cos_pm : cosine_similarity [(1 : ℝ)] [(-1 : ℝ)] = -1 := by
  simp only [cosine_similarity]
  rw [norm2_p, norm2_m, dot_pm]
  norm_num

theorem cos_mp : cosine_similarity [(-1 : ℝ)] [(1 : ℝ)] = -1 := by
  have h : dotList [(-1 : ℝ)] [(1 : ℝ)] = -1 := by norm_num [dotList]
  simp only [cosine_similarity]
  rw [norm2_p, norm2_m, h]
  norm_num

theorem cos_mm : cosine_similarity [(-1 : ℝ)] [(-1 : ℝ)] = 1 := by
  simp only [cosine_similarity]
  rw [norm2_m, dot_mm]
  norm_num

theorem cos_zz : cosine_similarity [(0 : ℝ)] [(0 : ℝ)] = 0 := by
  simp only [cosine_similarity]
  rw [if_pos (Or.inl norm2_z)]

/- ---------------------------------------------------------------------
   Claim C7 — cache round trip
--------------------------------------------------------------------- -/

theorem nearestFold_fresh (e : List ℝ) (newE : CacheEntry)
    (l : List CacheEntry) (best : CacheEntry)
    (hnew : cosine_similarity e newE.emb = 1)
    (hbest : cosine_similarity e best.emb < 1)
    (hl : ∀ x ∈ l, cosine_similarity e x.emb < 1) :
    (l ++ [newE]).foldl
      (fun best ent =>
        if 1 - cosine_similarity e ent.emb < 1 - cosine_similarity e best.emb
        then ent else best) best = newE := by
  induction l generalizing best with
  | nil =>
    simp only [List.nil_append, List.foldl_cons, List.foldl_nil]
    rw [hnew, if_pos (by linarith)]
  | cons x xs ih =>
    simp only [List.cons_append, List.foldl_cons]
    by_cases hlt : 1 - cosine_similarity e x.emb < 1 - cosine_similarity e best.emb
    · rw [if_pos hlt]
      exact ih _ (hl x (List.mem_cons_self x xs)) (fun y hy => hl y (List.mem_cons_of_mem x hy))
    · rw [if_neg hlt]
      exact ih _ hbest (fun y hy => hl y (List.mem_cons_of_mem x hy))

/-- C7 counterexample: the round trip fails as universally stated.  Storing
under the zero embedding and querying with the same embedding gives
similarity 0, not 1 (the zero-norm guard of cosine_similarity), so at
threshold 1/2 the query returns notFound instead of the stored issues. -/
theorem cache_roundtrip_zero_counterexample :
    ReviewCache.query (ReviewCache.store [] [(0 : ℝ)] [cIssue] "p") [(0 : ℝ)] (1 / 2)
        = .ok none ∧
      (Except.ok none : Except Unit (Option (List Issue))) ≠ .ok (some [cIssue]) := by
  constructor
  · simp only [ReviewCache.store, ReviewCache.query, List.nil_append, nearestEntry,
      List.foldl_nil, cos_zz]
    norm_num
  · simp

/-- C7 amended: for an embedding of non-zero norm, with every already
stored entry at cosine similarity strictly below 1 from it (for instance a
fresh cache), storing an issue list and querying with the identical
embedding at any threshold at most 1 returns exactly the stored list, all
fields preserved through serialization. -/
theorem cache_roundtrip (entries : List CacheEntry) (e : List ℝ)
    (issues : List Issue) (path : String) (t : ℝ)
    (hnz : dotList e e ≠ 0) (ht : t ≤ 1)
    (hfar : ∀ ent ∈ entries, cosine_similarity e ent.emb < 1) :
    ReviewCache.query (ReviewCache.store entries e issues path) e t
      = .ok (some issues) := by
  have hself : cosine_similarity e (⟨e, some (_serialize_issues issues), path⟩ :
      CacheEntry).emb = 1 := cosine_similarity_self e hnz
  cases entries with
  | nil =>
    simp only [ReviewCache.store, List.nil_append, ReviewCache.query, nearestEntry,
      List.foldl_nil]
    rw [hself]
    rw [if_neg (by linarith)]
    rw [deserialize_serialize]
  | cons hd rest =>
    simp only [ReviewCache.store, List.cons_append, ReviewCache.query]
    have hbest : nearestEntry e hd (rest ++ [⟨e, some (_serialize_issues issues), path⟩])
        = ⟨e, some (_serialize_issues issues), path⟩ := by
      unfold nearestEntry
      exact nearestFold_fresh e _ rest hd hself
        (hfar hd (List.mem_cons_self hd rest))
        (fun y hy => hfar y (List.mem_cons_of_mem hd hy))
    rw [hbest, hself]
    rw [if_neg (by linarith)]
    rw [deserialize_serialize]

/-- C7 witness: a fresh cache, the embedding [1], and an issue with a null
line and empty suggestion round-trips at threshold 1. -/
theorem cache_roundtrip_witness :
    ReviewCache.query (ReviewCache.store [] [(1 : ℝ)] [cIssue] "f0.txt") [(1 : ℝ)] 1
      = .ok (some [cIssue]) :=
  cache_roundtrip [] [(1 : ℝ)] [cIssue] "f0.txt" 1
    (by rw [dot_pp]; norm_num) le_rfl (by intro ent h; cases h)

/- ---------------------------------------------------------------------
   Claim C1 — corrupted payloads
--------------------------------------------------------------------- -/

/-- C1 counterexample: a stored entry whose payload is invalid JSON, at
similarity 1 and threshold 1/2, makes query return an empty issue list
(ok (some [])), not notFound (ok none) as the claim states. -/
theorem cache_corruption_counterexample :
    ReviewCache.query [corruptEntry] [(1 : ℝ)] (1 / 2) = .ok (some []) ∧
      (Except.ok (some ([] : List Issue)) : Except Unit (Option (List Issue)))
        ≠ .ok none := by
  constructor
  · simp only [ReviewCache.query, corruptEntry, nearestEntry, List.foldl_nil, cos_pp]
    norm_num [_deserialize_issues]
  · simp

/-- C1 amended: an unreadable stored payload (invalid JSON, or every item
malformed in a way the deserializer skips) on the nearest entry at or above
the threshold does not fail the query: it yields an empty issue list, and
the pipeline cache check then counts that representative as a cache hit
with zero cached issues instead of sending it to review. -/
theorem cache_corruption_empty_hit (hd : CacheEntry) (rest : List CacheEntry)
    (e : List ℝ) (t : ℝ) (fd : FileDiff)
    (hread : _deserialize_issues (nearestEntry e hd rest).payload = .ok [])
    (hsim : t ≤ cosine_similarity e (nearestEntry e hd rest).emb) :
    ReviewCache.query (hd :: rest) e t = .ok (some []) ∧
      cacheCheck (hd :: rest) t [(fd, e)] = .ok ([], [], 1) := by
  have hq : ReviewCache.query (hd :: rest) e t = .ok (some []) := by
    simp only [ReviewCache.query]
    rw [if_neg (by linarith :
      ¬(1 - (1 - cosine_similarity e (nearestEntry e hd rest).emb) < t))]
    rw [hread]
  refine ⟨hq, ?_⟩
  simp only [cacheCheck, hq]
  rfl

/-- C1 witness: the invalid-JSON entry at threshold 9/10 is an empty cache
hit, and the cache check counts it as a hit with no issues. -/
theorem cache_corruption_witness :
    ReviewCache.query [corruptEntry] [(1 : ℝ)] (9 / 10) = .ok (some []) ∧
      cacheCheck [corruptEntry] (9 / 10) [(⟨"a.py", "x", false, false⟩, [(1 : ℝ)])]
        = .ok ([], [], 1) :=
  cache_corruption_empty_hit corruptEntry [] [(1 : ℝ)] (9 / 10) ⟨"a.py", "x", false, false⟩
    (by rfl)
    (by simp only [nearestEntry, List.foldl_nil, corruptEntry, cos_pp]; norm_num)

/- ---------------------------------------------------------------------
   Claim C5 — deduplicate never drops files (dedupGo facts)
--------------------------------------------------------------------- -/

theorem dedupGo_nil (t : ℝ) : dedupGo t [] = ([], []) := by rw [dedupGo]

theorem dedupGo_cons (t : ℝ) (fd : FileDiff) (e : List ℝ)
    (rest : List (FileDiff × List ℝ)) :
    dedupGo t ((fd, e) :: rest) =
      ((fd, e) :: (dedupGo t (rest.filter
          (fun p => !(if cosine_similarity e p.2 ≥ t then true else false)))).1,
       if (rest.filter
           (fun p => if cosine_similarity e p.2 ≥ t then true else false)).isEmpty
       then (dedupGo t (rest.filter
          (fun p => !(if cosine_similarity e p.2 ≥ t then true else false)))).2
       else (fd.path, (rest.filter
           (fun p => if cosine_similarity e p.2 ≥ t then true else false)).map
             (fun p => p.1.path))
         :: (dedupGo t (rest.filter
          (fun p => !(if cosine_similarity e p.2 ≥ t then true else false)))).2) := by
  rw [dedupGo]

theorem dedupGo_rec (t : ℝ) (motive : List (FileDiff × List ℝ) → Prop)
    (h0 : motive [])
    (h1 : ∀ fd e rest,
      motive (rest.filter
        (fun p => !(if cosine_similarity e p.2 ≥ t then true else false))) →
      motive ((fd, e) :: rest)) :
    ∀ l, motive l := by
  have H : ∀ n (l : List (FileDiff × List ℝ)), l.length ≤ n → motive l := by
    intro n
    induction n with
    | zero =>
      intro l hl
      cases l with
      | nil => exact h0
      | cons x xs => simp at hl
    | succ n ihn =>
      intro l hl
      cases l with
      | nil => exact h0
      | cons x xs =>
        obtain ⟨fd, e⟩ := x
        refine h1 fd e xs (ihn _ ?_)
        have hle := List.length_filter_le
          (fun (p : FileDiff × List ℝ) =>
            !(if cosine_similarity e p.2 ≥ t then true else false)) xs
        simp only [List.length_cons] at hl
        omega
  exact fun l => H l.length l le_rfl

theorem dedupGo_length (t : ℝ) (l : List (FileDiff × List ℝ)) :
    (dedupGo t l).1.length + (((dedupGo t l).2).map (fun g => g.2.length)).sum
      = l.length := by
  refine dedupGo_rec t
    (fun l => (dedupGo t l).1.length
      + (((dedupGo t l).2).map (fun g => g.2.length)).sum = l.length) ?_ ?_ l
  · simp [dedupGo_nil]
  · intro fd e rest ih
    rw [dedupGo_cons]
    have hsplit := (List.filter_append_perm
      (fun p => if cosine_similarity e p.2 ≥ t then true else false) rest).length_eq
    rw [List.length_append] at hsplit
    by_cases hc : (rest.filter
        (fun p => if cosine_similarity e p.2 ≥ t then true else false)).isEmpty
    · have hz : (rest.filter
          (fun p => if cosine_similarity e p.2 ≥ t then true else false)).length = 0 := by
        rw [List.isEmpty_iff.mp hc]
        rfl
      rw [if_pos hc]
      simp only [List.length_cons]
      omega
    · rw [if_neg hc]
      simp only [List.length_cons, List.map_cons, List.sum_cons, List.length_map]
      omega

theorem dedupGo_paths_perm (t : ℝ) (l : List (FileDiff × List ℝ)) :
    List.Perm
      ((dedupGo t l).1.map (fun p => p.1.path)
        ++ (((dedupGo t l).2).map (fun g => g.2)).flatten)
      (l.map (fun p => p.1.path)) := by
  refine dedupGo_rec t
    (fun l => List.Perm
      ((dedupGo t l).1.map (fun p => p.1.path)
        ++ (((dedupGo t l).2).map (fun g => g.2)).flatten)
      (l.map (fun p => p.1.path))) ?_ ?_ l
  · simp [dedupGo_nil]
  · intro fd e rest ih
    rw [dedupGo_cons]
    have hsplit := (List.filter_append_perm
      (fun p => if cosine_similarity e p.2 ≥ t then true else false) rest).map
        (fun p => p.1.path)
    rw [List.map_append] at hsplit
    by_cases hc : (rest.filter
        (fun p => if cosine_similarity e p.2 ≥ t then true else false)).isEmpty
    · have hz : (rest.filter
          (fun p => if cosine_similarity e p.2 ≥ t then true else false)) = [] :=
        List.isEmpty_iff.mp hc
      rw [if_pos hc]
      simp only [List.map_cons, List.cons_append]
      refine List.Perm.cons fd.path (ih.trans ?_)
      rw [hz] at hsplit
      simpa using hsplit
    · rw [if_neg hc]
      simp only [List.map_cons, List.cons_append, List.flatten_cons]
      refine List.Perm.cons fd.path ?_
      rw [← List.append_assoc]
      refine (List.Perm.append_right _ List.perm_append_comm).trans ?_
      rw [List.append_assoc]
      exact (List.Perm.append_left _ ih).trans hsplit

theorem dedupGo_fst_sublist (t : ℝ) (l : List (FileDiff × List ℝ)) :
    (dedupGo t l).1.Sublist l := by
  refine dedupGo_rec t (fun l => (dedupGo t l).1.Sublist l) ?_ ?_ l
  · simp [dedupGo_nil]
  · intro fd e rest ih
    rw [dedupGo_cons]
    exact List.Sublist.cons₂ _ (ih.trans (List.filter_sublist rest))

theorem dedupGo_keys_sublist (t : ℝ) (l : List (FileDiff × List ℝ)) :
    ((dedupGo t l).2.map (fun g => g.1)).Sublist
      ((dedupGo t l).1.map (fun p => p.1.path)) := by
  refine dedupGo_rec t
    (fun l => ((dedupGo t l).2.map (fun g => g.1)).Sublist
      ((dedupGo t l).1.map (fun p => p.1.path))) ?_ ?_ l
  · simp [dedupGo_nil]
  · intro fd e rest ih
    rw [dedupGo_cons]
    by_cases hc : (rest.filter
        (fun p => if cosine_similarity e p.2 ≥ t then true else false)).isEmpty
    · rw [if_pos hc]
      simp only [List.map_cons]
      exact ih.cons _
    · rw [if_neg hc]
      simp only [List.map_cons]
      exact ih.cons₂ _

theorem dedupGo_all_unique (l : List (FileDiff × List ℝ))
    (h : l.Pairwise (fun a b => cosine_similarity a.2 b.2 < 1)) :
    dedupGo 1 l = (l, []) := by
  revert h
  refine dedupGo_rec 1
    (fun l => l.Pairwise (fun a b => cosine_similarity a.2 b.2 < 1) →
      dedupGo 1 l = (l, [])) ?_ ?_ l
  · intro _
    exact dedupGo_nil 1
  · intro fd e rest ih hp
    rcases List.pairwise_cons.mp hp with ⟨hx, hrest⟩
    have hclaim : (rest.filter
        (fun p => if cosine_similarity e p.2 ≥ (1 : ℝ) then true else false)) = [] := by
      refine List.filter_eq_nil_iff.mpr ?_
      intro p hpmem
      have := hx p hpmem
      rw [if_neg (not_le.mpr this)]
      exact Bool.false_ne_true
    have hun : (rest.filter
        (fun p => !(if cosine_similarity e p.2 ≥ (1 : ℝ) then true else false))) = rest := by
      refine List.filter_eq_self.mpr ?_
      intro p hpmem
      have := hx p hpmem
      rw [if_neg (not_le.mpr this)]
      rfl
    have ih' := ih
    rw [hun] at ih'
    rw [dedupGo_cons, hclaim, hun, ih' hrest]
    simp

theorem dictInsert_of_notMem (k : String) (v : List String)
    (l : List (String × List String)) (h : ∀ p ∈ l, p.1 ≠ k) :
    dictInsert k v l = l ++ [(k, v)] := by
  induction l with
  | nil => rfl
  | cons q rest ih =>
    obtain ⟨k', v'⟩ := q
    have hne : k' ≠ k := h (k', v') (List.mem_cons_self _ _)
    simp only [dictInsert, if_neg hne, List.cons_append]
    rw [ih (fun p hp => h p (List.mem_cons_of_mem _ hp))]

theorem foldl_dictInsert (pairs acc : List (String × List String))
    (hnd : (acc.map (fun p => p.1) ++ pairs.map (fun p => p.1)).Nodup) :
    pairs.foldl (fun a p => dictInsert p.1 p.2 a) acc = acc ++ pairs := by
  induction pairs generalizing acc with
  | nil => simp
  | cons p ps ih =>
    have hd : ∀ q ∈ acc, q.1 ≠ p.1 := by
      intro q hq heq
      have h1 : q.1 ∈ acc.map (fun p => p.1) := List.mem_map_of_mem _ hq
      have h2 : q.1 ∈ (p :: ps).map (fun p => p.1) := by
        rw [heq]
        simp
      exact (List.nodup_append.mp hnd).2.2 h1 h2
    rw [List.foldl_cons, dictInsert_of_notMem p.1 p.2 acc hd]
    have hnd' : ((acc ++ [p]).map (fun p => p.1) ++ ps.map (fun p => p.1)).Nodup := by
      rw [List.map_append, List.append_assoc]
      simpa using hnd
    rw [ih _ hnd', List.append_assoc]
    simp

/-- C5 amended: deduplicate never drops files, provided all input paths are
distinct (and the embedder honors its one-vector-per-text contract):
representative count plus absorbed-duplicate count equals the input count,
each input path occurs exactly once as a representative or a recorded
duplicate, representatives preserve input order, and at threshold 1 with
all pairwise similarities strictly below 1 every input file is its own
representative with empty groups. -/
theorem dedup_no_file_dropped (embed : List String → List (List ℝ)) (t : ℝ)
    (diffs : List FileDiff)
    (hne : diffs ≠ [])
    (hlen : (embed (diffs.map (fun d => d.diff))).length = diffs.length)
    (hpaths : (diffs.map (fun d => d.path)).Nodup) :
    (deduplicate embed t diffs).unique.length
        + (((deduplicate embed t diffs).groups).map (fun g => g.2.length)).sum
      = diffs.length
    ∧ List.Perm
        ((deduplicate embed t diffs).unique.map (fun d => d.path)
          ++ (((deduplicate embed t diffs).groups).map (fun g => g.2)).flatten)
        (diffs.map (fun d => d.path))
    ∧ (deduplicate embed t diffs).unique.Sublist diffs
    ∧ (t = 1 →
        (diffs.zip (embed (diffs.map (fun d => d.diff)))).Pairwise
          (fun a b => cosine_similarity a.2 b.2 < 1) →
        (deduplicate embed t diffs).unique = diffs
          ∧ (deduplicate embed t diffs).groups = []) := by
  cases diffs with
  | nil => exact absurd rfl hne
  | cons d1 tl =>
    cases tl with
    | nil =>
      refine ⟨by simp [deduplicate], by simp [deduplicate], by simp [deduplicate], ?_⟩
      intro _ _
      constructor <;> simp [deduplicate]
    | cons d2 tl2 =>
      set Z := (d1 :: d2 :: tl2).zip
        (embed ((d1 :: d2 :: tl2).map (fun d => d.diff))) with hZ
      have hdef : deduplicate embed t (d1 :: d2 :: tl2) =
          { unique := (dedupGo t Z).1.map (fun p => p.1),
            groups := (dedupGo t Z).2.foldl (fun acc p => dictInsert p.1 p.2 acc) [],
            embeddings := (dedupGo t Z).1.map (fun p => p.2) } := rfl
      have hfst : (fun (p : FileDiff × List ℝ) => p.1) = Prod.fst := rfl
      have hZfst : Z.map Prod.fst = d1 :: d2 :: tl2 := by
        rw [hZ]
        exact List.map_fst_zip _ _ (le_of_eq hlen.symm)
      have hzmap : Z.map (fun p => p.1.path) = (d1 :: d2 :: tl2).map (fun d => d.path) := by
        have h1 : Z.map (fun p => p.1.path)
            = (Z.map Prod.fst).map (fun d => d.path) := by
          rw [List.map_map]
          rfl
        rw [h1, hZfst]
      have hZlen : Z.length = (d1 :: d2 :: tl2).length := by
        have := congrArg List.length hZfst
        rwa [List.length_map] at this
      have hkeys : ((dedupGo t Z).2.map (fun g => g.1)).Nodup := by
        have h1 := dedupGo_keys_sublist t Z
        have h2 := (dedupGo_fst_sublist t Z).map (fun p => p.1.path)
        rw [hzmap] at h2
        exact List.Nodup.sublist (h1.trans h2) hpaths
      have hgroups : (dedupGo t Z).2.foldl
          (fun acc p => dictInsert p.1 p.2 acc) [] = (dedupGo t Z).2 := by
        have h := foldl_dictInsert (dedupGo t Z).2 [] (by simpa using hkeys)
        simpa using h
      refine ⟨?_, ?_, ?_, ?_⟩
      · rw [hdef]
        simp only [hgroups, List.length_map]
        rw [dedupGo_length t Z, hZlen]
      · rw [hdef]
        simp only [hgroups, List.map_map]
        have hcomp : ((fun d : FileDiff => d.path) ∘ (fun p : FileDiff × List ℝ => p.1))
            = fun p : FileDiff × List ℝ => p.1.path := rfl
        rw [hcomp]
        exact (dedupGo_paths_perm t Z).trans (by rw [hzmap])
      · rw [hdef]
        have h := (dedupGo_fst_sublist t Z).map Prod.fst
        rw [hZfst] at h
        simpa [hfst] using h
      · intro ht hpair
        subst ht
        have hall := dedupGo_all_unique Z hpair
        rw [hdef, hall]
        constructor
        · simpa [hfst] using hZfst
        · simp

/-- C5 witness: a single-diff input, where every part of the statement is
concrete. -/
theorem dedup_no_file_dropped_witness :
    (deduplicate embedPM 1 [fdA]).unique.length
        + (((deduplicate embedPM 1 [fdA]).groups).map (fun g => g.2.length)).sum
      = ([fdA] : List FileDiff).length :=
  (dedup_no_file_dropped embedPM 1 [fdA] (by simp)
    (by simp [embedPM]) (by simp)).1

theorem dedupGo_eval_gd_inner :
    dedupGo (1 / 2 : ℝ) [(gdC, [(-1 : ℝ)]), (gdD, [(-1 : ℝ)])]
      = ([(gdC, [(-1 : ℝ)])], [("pa", ["pr"])]) := by
  rw [dedupGo_cons]
  norm_num [List.filter, cos_mm, dedupGo_nil, gdC, gdD]

theorem dedupGo_eval_gd :
    dedupGo (1 / 2 : ℝ)
        [(gdA, [(1 : ℝ)]), (gdB, [(1 : ℝ)]), (gdC, [(-1 : ℝ)]), (gdD, [(-1 : ℝ)])]
      = ([(gdA, [(1 : ℝ)]), (gdC, [(-1 : ℝ)])], [("pa", ["pb"]), ("pa", ["pr"])]) := by
  rw [dedupGo_cons]
  norm_num [List.filter, cos_pp, cos_pm, dedupGo_eval_gd_inner, gdA, gdB]

theorem dedup_eval_gd :
    deduplicate embedPM (1 / 2 : ℝ) [gdA, gdB, gdC, gdD] =
      { unique := [gdA, gdC], groups := [("pa", ["pr"])],
        embeddings := [[(1 : ℝ)], [(-1 : ℝ)]] } := by
  have e1 : embedPM (([gdA, gdB, gdC, gdD] : List FileDiff).map (fun fd => fd.diff))
      = [[(1 : ℝ)], [(1 : ℝ)], [(-1 : ℝ)], [(-1 : ℝ)]] := by
    simp [embedPM, gdA, gdB, gdC, gdD]
  simp only [deduplicate, e1]
  norm_num [dedupGo_eval_gd, List.foldl, dictInsert]

/-- C5 counterexample: with repeated input paths, two representatives can
share a path, the second groups-dict assignment overwrites the first, and
the recorded duplicate of the first group is lost: on this 4-diff input the
representative count plus recorded-duplicate count is 3, not 4. -/
theorem dedup_drops_counterexample :
    ¬((deduplicate embedPM (1 / 2 : ℝ) [gdA, gdB, gdC, gdD]).unique.length
        + (((deduplicate embedPM (1 / 2 : ℝ) [gdA, gdB, gdC, gdD]).groups).map
            (fun g => g.2.length)).sum
      = ([gdA, gdB, gdC, gdD] : List FileDiff).length) := by
  rw [dedup_eval_gd]
  simp

/- ---------------------------------------------------------------------
   Claim C9 — one cache entry stored per cache-miss representative
--------------------------------------------------------------------- -/

theorem store_in_background_eq (needs : List (FileDiff × List ℝ))
    (cache : List CacheEntry) (all_issues : List Issue) :
    _store_in_background cache needs all_issues
      = cache ++ needs.map (fun p =>
          (⟨p.2, some (_serialize_issues
              (all_issues.filter (fun i => i.file == p.1.path))),
            p.1.path⟩ : CacheEntry)) := by
  induction needs generalizing cache with
  | nil => simp [_store_in_background]
  | cons p ps ih =>
    show _store_in_background (ReviewCache.store cache p.2
        (all_issues.filter (fun i => i.file == p.1.path)) p.1.path) ps all_issues = _
    rw [ih]
    simp [ReviewCache.store]

/-- C9: after the review stage, run_pipeline appends to the cache exactly
one new entry per cache-miss representative, in cache-check order,
including representatives dropped by the token budget and ones whose batch
failed; the payload stored for a representative is the serialization of
the merged issues whose file equals its path, possibly empty. -/
theorem pipeline_stores_per_miss (embed : List String → List (List ℝ))
    (review : List FileDiff → Option (List Issue))
    (cache0 : List CacheEntry) (config : LocalDuckConfig)
    (diffs : List FileDiff) (res : ScanResult) (cfinal : List CacheEntry)
    (needs : List (FileDiff × List ℝ)) (cached : List Issue) (hits : Nat)
    (h2 : cacheCheck cache0 config.cache_threshold
        ((deduplicate embed config.cache_threshold
            (prioritize_diffs (filter_diffs diffs).1)).unique.zip
          (deduplicate embed config.cache_threshold
            (prioritize_diffs (filter_diffs diffs).1)).embeddings)
      = .ok (needs, cached, hits))
    (h : run_pipeline embed review cache0 config diffs = .ok (res, cfinal)) :
    cfinal = cache0 ++ needs.map (fun p =>
      (⟨p.2, some (_serialize_issues
          ((reviewMerge review cached
            (batch_diffs (needs.map (fun q => q.1)) 12000
              (if config.token_budget > 0 then some config.token_budget
               else none)).1).filter
            (fun i => i.file == p.1.path))),
        p.1.path⟩ : CacheEntry)) := by
  by_cases hemp : (filter_diffs diffs).1.isEmpty
  · have hnil : (filter_diffs diffs).1 = [] := List.isEmpty_iff.mp hemp
    rw [hnil] at h2
    simp only [prioritize_diffs, List.foldr_nil, deduplicate, List.zip_nil_left,
      cacheCheck, Except.ok.injEq, Prod.mk.injEq] at h2
    obtain ⟨hn, hc, hh⟩ := h2
    subst hn
    simp only [run_pipeline, hemp, if_true, Except.ok.injEq, Prod.mk.injEq] at h
    rw [← h.2]
    simp
  · simp only [run_pipeline, hemp] at h
    rw [h2] at h
    simp only [Bool.false_eq_true, if_false, Except.ok.injEq, Prod.mk.injEq] at h
    rw [← h.2]
    exact store_in_background_eq needs cache0 _

/-- C9 witness: the empty-input run appends nothing and has no misses. -/
theorem pipeline_stores_per_miss_witness :
    ([] : List CacheEntry) = [] ++ (([] : List (FileDiff × List ℝ)).map (fun p =>
      (⟨p.2, some (_serialize_issues
          ((reviewMerge reviewNone []
            (batch_diffs (([] : List (FileDiff × List ℝ)).map (fun q => q.1)) 12000
              (if cfgOne.token_budget > 0 then some cfgOne.token_budget
               else none)).1).filter
            (fun i => i.file == p.1.path))),
        p.1.path⟩ : CacheEntry))) :=
  pipeline_stores_per_miss embedPM reviewNone [] cfgOne [] {} [] [] [] 0 rfl rfl

/- ---------------------------------------------------------------------
   Claim C2 — filesScanned accounting
--------------------------------------------------------------------- -/

/-- C2 amended: filesScanned equals the post-filter reviewable count (not
the deduplicated representative count) minus the token-budget-dropped
count; the dropped count is recoverable from the result as the length of
skippedFiles beyond the filter-stage skips. -/
theorem pipeline_files_scanned (embed : List String → List (List ℝ))
    (review : List FileDiff → Option (List Issue))
    (cache0 : List CacheEntry) (config : LocalDuckConfig)
    (diffs : List FileDiff) (res : ScanResult) (cfinal : List CacheEntry)
    (h : run_pipeline embed review cache0 config diffs = .ok (res, cfinal)) :
    res.files_scanned
      = (filter_diffs diffs).1.length
        - (res.skipped_files.length - res.files_skipped) := by
  by_cases hemp : (filter_diffs diffs).1.isEmpty
  · have hnil : (filter_diffs diffs).1 = [] := List.isEmpty_iff.mp hemp
    simp only [run_pipeline, hemp, if_true, Except.ok.injEq, Prod.mk.injEq] at h
    rw [← h.1, hnil]
    simp
  · simp only [run_pipeline, hemp] at h
    cases hcc : cacheCheck cache0 config.cache_threshold
        ((deduplicate embed config.cache_threshold
            (prioritize_diffs (filter_diffs diffs).1)).unique.zip
          (deduplicate embed config.cache_threshold
            (prioritize_diffs (filter_diffs diffs).1)).embeddings) with
    | error err =>
      rw [hcc] at h
      simp at h
    | ok cc =>
      rw [hcc] at h
      simp only [Bool.false_eq_true, if_false, Except.ok.injEq, Prod.mk.injEq] at h
      rw [← h.1]
      simp only [List.length_append]
      rw [(prioritize_diffs_perm (filter_diffs diffs).1).length_eq]
      omega

/-- C2 witness: the empty-input run. -/
theorem pipeline_files_scanned_witness :
    ({} : ScanResult).files_scanned
      = (filter_diffs ([] : List FileDiff)).1.length
        - (({} : ScanResult).skipped_files.length - ({} : ScanResult).files_skipped) :=
  pipeline_files_scanned embedPM reviewNone [] cfgOne [] {} [] rfl

/- ---------------------------------------------------------------------
   Claim C8 — duplicate fan-out
--------------------------------------------------------------------- -/

theorem fanout_general (groups : List (String × List String)) (issues : List Issue) :
    ∀ extra : List Issue,
    (∀ g ∈ groups, ∀ g' ∈ groups, ∀ d ∈ g.2, d ≠ g'.1) →
    (∀ g ∈ groups, ∀ i ∈ extra, i.file ≠ g.1) →
    fanout groups (issues ++ extra)
      = issues ++ extra ++ groups.flatMap (fun g => g.2.flatMap (fun dup =>
          (issues.filter (fun i => i.file == g.1)).map
            (fun i => { i with file := dup }))) := by
  induction groups with
  | nil =>
    intro extra _ _
    simp [fanout]
  | cons g gs ih =>
    intro extra hdisj hextra
    have hfe : (issues ++ extra).filter (fun i => i.file == g.1)
        = issues.filter (fun i => i.file == g.1) := by
      rw [List.filter_append]
      have hz : extra.filter (fun i => i.file == g.1) = [] :=
        List.filter_eq_nil_iff.mpr (fun i hi => by
          simpa using hextra g (List.mem_cons_self _ _) i hi)
      rw [hz, List.append_nil]
    have hstep : fanout (g :: gs) (issues ++ extra)
        = fanout gs ((issues ++ extra) ++ g.2.flatMap (fun dup =>
            ((issues ++ extra).filter (fun i => i.file == g.1)).map
              (fun i => { i with file := dup }))) := rfl
    have hdisj' : ∀ g1 ∈ gs, ∀ g2 ∈ gs, ∀ d ∈ g1.2, d ≠ g2.1 :=
      fun g1 h1 g2 h2 =>
        hdisj g1 (List.mem_cons_of_mem _ h1) g2 (List.mem_cons_of_mem _ h2)
    have hextra' : ∀ g' ∈ gs, ∀ i ∈ extra ++ g.2.flatMap (fun dup =>
        (issues.filter (fun i => i.file == g.1)).map (fun i => { i with file := dup })),
        i.file ≠ g'.1 := by
      intro g' hg' i hi
      rcases List.mem_append.mp hi with hi1 | hi2
      · exact hextra g' (List.mem_cons_of_mem _ hg') i hi1
      · rcases List.mem_flatMap.mp hi2 with ⟨dup, hdup, hmem⟩
        rcases List.mem_map.mp hmem with ⟨j, _, rfl⟩
        show dup ≠ g'.1
        exact hdisj g (List.mem_cons_self _ _) g' (List.mem_cons_of_mem _ hg') dup hdup
    rw [hstep, hfe, List.append_assoc, ih _ hdisj' hextra']
    simp [List.append_assoc]

/-- C8 amended: provided no recorded duplicate path coincides with any
representative path (as holds whenever input paths are distinct), the final
issue list is the merged cache-hit and review issues followed by, for each
group in insertion order and each duplicate path, one clone per merged
issue attributed to the representative, with only the file field rewritten. -/
theorem pipeline_fanout (embed : List String → List (List ℝ))
    (review : List FileDiff → Option (List Issue))
    (cache0 : List CacheEntry) (config : LocalDuckConfig)
    (diffs : List FileDiff) (res : ScanResult) (cfinal : List CacheEntry)
    (needs : List (FileDiff × List ℝ)) (cached : List Issue) (hits : Nat)
    (h2 : cacheCheck cache0 config.cache_threshold
        ((deduplicate embed config.cache_threshold
            (prioritize_diffs (filter_diffs diffs).1)).unique.zip
          (deduplicate embed config.cache_threshold
            (prioritize_diffs (filter_diffs diffs).1)).embeddings)
      = .ok (needs, cached, hits))
    (h : run_pipeline embed review cache0 config diffs = .ok (res, cfinal))
    (hdisj : ∀ g ∈ (deduplicate embed config.cache_threshold
          (prioritize_diffs (filter_diffs diffs).1)).groups,
        ∀ g' ∈ (deduplicate embed config.cache_threshold
          (prioritize_diffs (filter_diffs diffs).1)).groups,
        ∀ d ∈ g.2, d ≠ g'.1) :
    res.issues
      = reviewMerge review cached
          (batch_diffs (needs.map (fun q => q.1)) 12000
            (if config.token_budget > 0 then some config.token_budget
             else none)).1
        ++ ((deduplicate embed config.cache_threshold
              (prioritize_diffs (filter_diffs diffs).1)).groups).flatMap
            (fun g => g.2.flatMap (fun dup =>
              ((reviewMerge review cached
                  (batch_diffs (needs.map (fun q => q.1)) 12000
                    (if config.token_budget > 0 then some config.token_budget
                     else none)).1).filter
                  (fun i => i.file == g.1)).map
                (fun i => { i with file := dup }))) := by
  by_cases hemp : (filter_diffs diffs).1.isEmpty
  · have hnil : (filter_diffs diffs).1 = [] := List.isEmpty_iff.mp hemp
    rw [hnil] at h2 ⊢
    simp only [prioritize_diffs, List.foldr_nil, deduplicate, List.zip_nil_left,
      cacheCheck, Except.ok.injEq, Prod.mk.injEq] at h2
    obtain ⟨hn, hc, _⟩ := h2
    subst hn
    subst hc
    simp only [run_pipeline, hemp, if_true, Except.ok.injEq, Prod.mk.injEq] at h
    rw [← h.1]
    simp [prioritize_diffs, deduplicate, reviewMerge, batch_diffs]
  · simp only [run_pipeline, hemp] at h
    rw [h2] at h
    simp only [Bool.false_eq_true, if_false, Except.ok.injEq, Prod.mk.injEq] at h
    rw [← h.1]
    have hfan := fanout_general
      ((deduplicate embed config.cache_threshold
          (prioritize_diffs (filter_diffs diffs).1)).groups)
      (reviewMerge review cached
        (batch_diffs (needs.map (fun q => q.1)) 12000
          (if config.token_budget > 0 then some config.token_budget else none)).1)
      [] hdisj (fun g _ i hi => absurd hi (List.not_mem_nil i))
    rw [List.append_nil] at hfan
    rw [hfan]

/-- C8 witness: the empty-input run, where the merged list, the groups and
the fan-out are all empty. -/
theorem pipeline_fanout_witness :
    ({} : ScanResult).issues
      = reviewMerge reviewNone []
          (batch_diffs (([] : List (FileDiff × List ℝ)).map (fun q => q.1)) 12000
            (if cfgOne.token_budget > 0 then some cfgOne.token_budget
             else none)).1
        ++ ((deduplicate embedPM cfgOne.cache_threshold
              (prioritize_diffs (filter_diffs ([] : List FileDiff)).1)).groups).flatMap
            (fun g => g.2.flatMap (fun dup =>
              ((reviewMerge reviewNone []
                  (batch_diffs (([] : List (FileDiff × List ℝ)).map (fun q => q.1)) 12000
                    (if cfgOne.token_budget > 0 then some cfgOne.token_budget
                     else none)).1).filter
                  (fun i => i.file == g.1)).map
                (fun i => { i with file := dup }))) :=
  pipeline_fanout embedPM reviewNone [] cfgOne [] {} [] [] [] 0 rfl rfl
    (by
      intro g hg
      simp [filter_diffs, prioritize_diffs, deduplicate] at hg)

theorem dedupGo_eval_fd2 :
    dedupGo (1 : ℝ) [(fdA, [(1 : ℝ)]), (fdB, [(1 : ℝ)])]
      = ([(fdA, [(1 : ℝ)])], [("f0.txt", ["f1.txt"])]) := by
  rw [dedupGo_cons]
  norm_num [List.filter, cos_pp, dedupGo_nil, fdA, fdB]

theorem dedup_eval_fd2 :
    deduplicate embedPM (1 : ℝ) [fdA, fdB]
      = { unique := [fdA], groups := [("f0.txt", ["f1.txt"])],
          embeddings := [[(1 : ℝ)]] } := by
  have e1 : embedPM (([fdA, fdB] : List FileDiff).map (fun fd => fd.diff))
      = [[(1 : ℝ)], [(1 : ℝ)]] := by
    simp [embedPM, fdA, fdB]
  simp only [deduplicate, e1]
  simp [dedupGo_eval_fd2, List.foldl, dictInsert]

/-- C2 counterexample: two reviewable files with identical diff text
deduplicate to one representative, yet filesScanned is 2 (the post-filter
count), not 1 (the representative count) as the claim states; no file was
dropped for budget. -/
theorem pipeline_files_scanned_counterexample :
    (run_pipeline embedPM reviewNone [] cfgOne [fdA, fdB]).map
        (fun p => p.1.files_scanned) = .ok 2
    ∧ (deduplicate embedPM cfgOne.cache_threshold
        (prioritize_diffs (filter_diffs [fdA, fdB]).1)).unique.length = 1
    ∧ (2 : Nat) ≠ 1 - 0 := by
  have hfil : filter_diffs [fdA, fdB] = ([fdA, fdB], []) := by decide
  have hpri : prioritize_diffs [fdA, fdB] = [fdA, fdB] := by decide
  have hcc : cacheCheck [] (1 : ℝ) [(fdA, [(1 : ℝ)])]
      = .ok ([(fdA, [(1 : ℝ)])], [], 0) := rfl
  have hbat : batch_diffs [fdA] 12000 none = ([[fdA]], []) := by decide
  have hmer : reviewMerge reviewNone [] [[fdA]] = [] := rfl
  have hfan : fanout [("f0.txt", ["f1.txt"])] [] = [] := rfl
  refine ⟨?_, ?_, by decide⟩
  · simp [run_pipeline, hfil, cfgOne, hpri, dedup_eval_fd2, hcc, hbat, hmer,
      hfan, Except.map]
  · simp [hfil, cfgOne, hpri, dedup_eval_fd2]

theorem dedupGo_eval_fd4_inner :
    dedupGo (1 : ℝ) [(fdC, [(-1 : ℝ)]), (fdD, [(-1 : ℝ)])]
      = ([(fdC, [(-1 : ℝ)])], [("f1.txt", ["f2.txt"])]) := by
  rw [dedupGo_cons]
  norm_num [List.filter, cos_mm, dedupGo_nil, fdC, fdD]

theorem dedupGo_eval_fd4 :
    dedupGo (1 : ℝ)
        [(fdA, [(1 : ℝ)]), (fdB, [(1 : ℝ)]), (fdC, [(-1 : ℝ)]), (fdD, [(-1 : ℝ)])]
      = ([(fdA, [(1 : ℝ)]), (fdC, [(-1 : ℝ)])],
         [("f0.txt", ["f1.txt"]), ("f1.txt", ["f2.txt"])]) := by
  rw [dedupGo_cons]
  norm_num [List.filter, cos_pp, cos_pm, dedupGo_eval_fd4_inner, fdA, fdB]

theorem dedup_eval_fd4 :
    deduplicate embedPM (1 : ℝ) [fdA, fdB, fdC, fdD]
      = { unique := [fdA, fdC],
          groups := [("f0.txt", ["f1.txt"]), ("f1.txt", ["f2.txt"])],
          embeddings := [[(1 : ℝ)], [(-1 : ℝ)]] } := by
  have e1 : embedPM (([fdA, fdB, fdC, fdD] : List FileDiff).map (fun fd => fd.diff))
      = [[(1 : ℝ)], [(1 : ℝ)], [(-1 : ℝ)], [(-1 : ℝ)]] := by
    simp [embedPM, fdA, fdB, fdC, fdD]
  simp only [deduplicate, e1]
  simp [dedupGo_eval_fd4, List.foldl, dictInsert]

/-- C8 counterexample: with a duplicate path (f1.txt) that is also a later
representative path, the live-list fan-out re-clones a clone: the final
issue list has three issues, while cloning each merged issue once per
duplicate path predicts only two (the merged list is [cIssue]). -/
theorem pipeline_fanout_counterexample :
    (run_pipeline embedPM reviewOne [] cfgOne [fdA, fdB, fdC, fdD]).map
        (fun p => p.1.issues)
      = .ok [cIssue, { cIssue with file := "f1.txt" },
             { cIssue with file := "f2.txt" }]
    ∧ ([cIssue, { cIssue with file := "f1.txt" },
        { cIssue with file := "f2.txt" }] : List Issue)
      ≠ [cIssue]
        ++ ([("f0.txt", ["f1.txt"]), ("f1.txt", ["f2.txt"])] :
              List (String × List String)).flatMap
            (fun g => g.2.flatMap (fun dup =>
              (([cIssue] : List Issue).filter (fun i => i.file == g.1)).map
                (fun i => { i with file := dup }))) := by
  have hfil : filter_diffs [fdA, fdB, fdC, fdD] = ([fdA, fdB, fdC, fdD], []) := by
    decide
  have hpri : prioritize_diffs [fdA, fdB, fdC, fdD] = [fdA, fdB, fdC, fdD] := by
    decide
  have hcc : cacheCheck [] (1 : ℝ) [(fdA, [(1 : ℝ)]), (fdC, [(-1 : ℝ)])]
      = .ok ([(fdA, [(1 : ℝ)]), (fdC, [(-1 : ℝ)])], [], 0) := rfl
  have hbat : batch_diffs [fdA, fdC] 12000 none = ([[fdA, fdC]], []) := by decide
  have hmer : reviewMerge reviewOne [] [[fdA, fdC]] = [cIssue] := rfl
  have hfan : fanout [("f0.txt", ["f1.txt"]), ("f1.txt", ["f2.txt"])] [cIssue]
      = [cIssue, { cIssue with file := "f1.txt" },
         { cIssue with file := "f2.txt" }] := by decide
  refine ⟨?_, by decide⟩
  simp [run_pipeline, hfil, cfgOne, hpri, dedup_eval_fd4, hcc, hbat, hmer,
    hfan, Except.map]
